import Mathlib

/-!
Verification development for the contactdb reconciliation engine of
`contactdb_api/contactdb_api/serve.py`.

The Python source is shallowly embedded: annotations (JSON dicts with keys
`tag`, optional `condition`, optional `expires`) become a Lean structure,
the database becomes an explicit state record, and each routine of the
reconciliation engine becomes a pure (where the source is pure) or
state-passing function.  Fallible routines return `Except`.

Modelling notes, fixed once here:
* A Python annotation dict is `{tag, condition?, expires?}`.  The `condition`
  payload is only ever compared for equality by the engine (the
  `hashable_annotation` / `unhashable_annotation` round trip converts lists
  to tuples and back without changing equality), so it is embedded as an
  opaque-but-concrete `String × List String` (operator and arguments).
  `expires = none` models an absent key, `expires = some ""` the empty
  string, which the source treats as distinct values everywhere except in
  the normalisation in `_compare_org`.
* SQL tables become Lean lists of rows; `DELETE ... WHERE` becomes
  `List.filter`, `INSERT` becomes an append, `SELECT ... ORDER BY` becomes a
  stable insertion sort (the Python `sorted` and SQL `ORDER BY` on these keys).
* `ThreadedConnectionPool` plumbing together with the fact that
  `_db_query`/`_db_manipulate` call `conn.commit()` after every single
  statement is modelled at the batch-executor level: a failing command
  leaves the state produced by the previously completed commands in place
  (serve.py lines 241-265 commit per statement; no rollback exists at the
  endpoint).
-/

/-- An annotation, the JSON object `{tag, condition?, expires?}` handled by
`_annotation_diff` (serve.py 503-563).  `condition` is compared only for
equality, `expires` is the optional expiry-date string. -/
structure Annotation where
  tag : String
  condition : Option (String × List String) := none
  expires : Option String := none
deriving DecidableEq, Repr

/-- One element of the `add`/`remove` lists produced by `_annotation_diff`:
the annotation plus the `log` flag. -/
structure DiffEntry where
  data : Annotation
  log : Bool
deriving DecidableEq, Repr

/-- One element of the `change` list produced by `_annotation_diff`. -/
structure ChangeEntry where
  before : Annotation
  after : Annotation
deriving DecidableEq, Repr

/-- The dict with keys add, remove and change returned by
`_annotation_diff`. -/
structure DiffResult where
  add : List DiffEntry
  remove : List DiffEntry
  change : List ChangeEntry
deriving DecidableEq, Repr

/-- serve.py line 128. -/
def ANNOTATION_DIFF_MAX : Nat := 20

/-- The comparison key used by the pairing loops of `_annotation_diff`
(lines 529-533, 545-549): a copy of the annotation with the `expires` key
popped. -/
def stripExpires (a : Annotation) : Annotation := { a with expires := none }

/-- The sort key of `Hashabledict.__lt__` (serve.py 477-479):
`f"{tag}{expires}{inhibtion}"`; the annotation has no `inhibtion` key so the
final component is always the Python rendering None, and an absent `expires` also
renders as `"None"`. -/
def pySortKey (a : Annotation) : String :=
  a.tag ++ (match a.expires with | none => "None" | some s => s) ++ "None"

/-- Stable insertion of `x` into `l`: `x` goes before the first element
strictly greater by `lt`.  Together with `sortBy` this reproduces the
stable Python `sorted` and SQL `ORDER BY` for our keys. -/
def insertSorted {α : Type} (lt : α → α → Bool) (x : α) : List α → List α
  | [] => [x]
  | y :: ys => if lt x y then x :: y :: ys else y :: insertSorted lt x ys

/-- Stable insertion sort. -/
def sortBy {α : Type} (lt : α → α → Bool) (l : List α) : List α :=
  l.foldr (insertSorted lt) []

/-- Model of `sorted(...)` over `Hashabledict`s (serve.py 525-526). -/
def sortAnnos (l : List Annotation) : List Annotation :=
  sortBy (fun a b => pySortKey a < pySortKey b) l

/-- Output of the first pairing loop of `_annotation_diff`
(serve.py 528-542): the accumulated `remove`/`add`/`change` lists plus the
final (mutated) `to_remove` and `to_add` candidate pools. -/
structure Loop1Out where
  remove : List DiffEntry
  add : List DiffEntry
  change : List ChangeEntry
  trFinal : List Annotation
  taFinal : List Annotation
deriving DecidableEq, Repr

/-- First pairing loop of `_annotation_diff` (serve.py 528-542).
`iter` is the copy of `to_remove` being iterated, `tr`/`ta` are the live
(mutated) `to_remove`/`to_add` lists. -/
def diffLoop1 : (iter tr ta : List Annotation) → Loop1Out
  | [], tr, ta => ⟨[], [], [], tr, ta⟩
  | anno :: rest, tr, ta =>
    match ta.find? (fun c => stripExpires c == stripExpires anno) with
    | some partner =>
      ⟨⟨anno, false⟩ ::
          (diffLoop1 rest (tr.erase anno) (ta.erase partner)).remove,
        ⟨partner, false⟩ ::
          (diffLoop1 rest (tr.erase anno) (ta.erase partner)).add,
        ⟨anno, partner⟩ ::
          (diffLoop1 rest (tr.erase anno) (ta.erase partner)).change,
        (diffLoop1 rest (tr.erase anno) (ta.erase partner)).trFinal,
        (diffLoop1 rest (tr.erase anno) (ta.erase partner)).taFinal⟩
    | none =>
      ⟨⟨anno, true⟩ :: (diffLoop1 rest tr ta).remove,
        (diffLoop1 rest tr ta).add, (diffLoop1 rest tr ta).change,
        (diffLoop1 rest tr ta).trFinal, (diffLoop1 rest tr ta).taFinal⟩

/-- Output of the second pairing loop (serve.py 544-557). -/
structure Loop2Out where
  add : List DiffEntry
  remove : List DiffEntry
  change : List ChangeEntry
deriving DecidableEq, Repr

/-- Second pairing loop of `_annotation_diff` (serve.py 544-557): iterates
over the remaining `to_add`, mutating `to_remove`. -/
def diffLoop2 : (iter tr : List Annotation) → Loop2Out
  | [], _ => ⟨[], [], []⟩
  | anno :: rest, tr =>
    match tr.find? (fun c => stripExpires c == stripExpires anno) with
    | some partner =>
      ⟨⟨anno, false⟩ :: (diffLoop2 rest (tr.erase partner)).add,
        ⟨partner, false⟩ :: (diffLoop2 rest (tr.erase partner)).remove,
        ⟨partner, anno⟩ :: (diffLoop2 rest (tr.erase partner)).change⟩
    | none =>
      ⟨⟨anno, true⟩ :: (diffLoop2 rest tr).add, (diffLoop2 rest tr).remove,
        (diffLoop2 rest tr).change⟩

/-- Model of `set(hashable_annotation(e) for e in xs) - set(... ys)` followed by
`sorted`: the distinct elements of `xs` that do not occur in `ys`, sorted by
the `Hashabledict` key (serve.py 523-526). -/
def sortedSetDiff (xs ys : List Annotation) : List Annotation :=
  sortAnnos ((xs.dedup).filter (fun a => decide (a ∉ ys)))

/-- Model of `_annotation_diff` (serve.py 503-563). -/
def annotation_diff (annos_are annos_should : List Annotation)
    (detect_modifications : Bool) : DiffResult :=
  let detect :=
    if ANNOTATION_DIFF_MAX ≤ annos_are.length + annos_should.length then false
    else detect_modifications
  if detect then
    let to_remove := sortedSetDiff annos_are annos_should
    let to_add := sortedSetDiff annos_should annos_are
    let o1 := diffLoop1 to_remove to_remove to_add
    let o2 := diffLoop2 o1.taFinal o1.trFinal
    ⟨o1.add ++ o2.add, o1.remove ++ o2.remove, o1.change ++ o2.change⟩
  else
    ⟨(annos_should.filter (fun a => decide (a ∉ annos_are))).map
        (fun a => ⟨a, true⟩),
      (annos_are.filter (fun a => decide (a ∉ annos_should))).map
        (fun a => ⟨a, true⟩),
      []⟩

/-- The condition under which `_annotation_diff` emits its performance
warning (serve.py 513-516). -/
def annotation_diff_warns (annos_are annos_should : List Annotation) : Bool :=
  decide (ANNOTATION_DIFF_MAX ≤ annos_are.length + annos_should.length)

/-! ## Database model

Rows and tables of the certbund-contact schema as used by the
reconciliation engine. -/

/-- Row of the `organisation` table. -/
structure OrgRow where
  organisation_id : Nat
  name : String
  comment : String
  ripe_org_hdl : String
  ti_handle : String
  first_handle : String
  sector_id : Option Nat
deriving DecidableEq, Repr

/-- A leaf record (`contact` / `national_cert`) as a Python dict:
association list from field name to value; `none` models JSON `null`, an
absent key models a missing attribute. -/
abbrev Leaf := List (String × Option String)

/-- Stored leaf row: the mandatory fields with their values plus the owning
organisation id — the columns of the INSERT in `__fix_leafnodes_to_org`
(serve.py 815-822). -/
structure LeafRow where
  fields : List (String × String)
  organisation_id : Nat
deriving DecidableEq, Repr

/-- Row of the `network`/`fqdn` table: surrogate id, business key
(address / fqdn) and comment. -/
structure NtmRow where
  id : Nat
  key : String
  comment : String
deriving DecidableEq, Repr

/-- The tables belonging to one n-to-m kind (`network` or `fqdn`): the entry
table, the `organisation_to_*` join table (organisation id, entry id), the
`*_annotation` table, and the id sequence. -/
structure NtmTables where
  rows : List NtmRow
  links : List (Nat × Nat)
  annotations : List (Nat × Annotation)
  next_id : Nat
deriving DecidableEq, Repr

/-- Row of the append-only `audit_log` table
(serve.py 596-600, 612-616, 618-623). -/
structure AuditRow where
  table : String
  user : String
  operation : String
  object_type : String
  object_value : String
  before : Option Annotation := none
  after : Option Annotation := none
deriving DecidableEq, Repr

/-- The database state reached through `_db_query`/`_db_manipulate`.
`info_log` records the `log.info` messages the engine emits for discarded
duplicate business keys. -/
structure DBState where
  organisations : List OrgRow
  next_org_id : Nat
  org_annotations : List (Nat × Annotation)
  asn_annotations : List (Nat × Annotation)
  org_to_asn : List (Nat × Nat)
  network : NtmTables
  fqdn : NtmTables
  contacts : List LeafRow
  national_certs : List LeafRow
  audit_log : List AuditRow
  info_log : List String
deriving DecidableEq, Repr

/-- The empty database. -/
def emptyDB : DBState :=
  ⟨[], 1, [], [], [], ⟨[], [], [], 1⟩, ⟨[], [], [], 1⟩, [], [], [], []⟩

/-- An ASN element of an aggregate.  A read-back dict has keys
`organisation_id`, `asn` and `annotations` (serve.py 330-337, 396-400);
caller-supplied dicts for create/update only need `asn` (+ `annotations`). -/
structure AsnEntry where
  asn : Nat
  organisation_id : Option Nat := none
  annotations : List Annotation := []
deriving DecidableEq, Repr

/-- A network/fqdn element of an aggregate: surrogate id
(`network_id`/`fqdn_id`, present on read-back), business key
(`address`/`fqdn`), `comment` and `annotations`. -/
structure NtmEntry where
  id : Option Nat := none
  key : String
  comment : String
  annotations : List Annotation := []
deriving DecidableEq, Repr

/-- An organisation aggregate as submitted by the caller or read back by
`__db_query_org`. -/
structure Org where
  organisation_id : Option Nat := none
  name : String
  comment : String := ""
  ripe_org_hdl : String := ""
  ti_handle : String := ""
  first_handle : String := ""
  sector_id : Option Nat := none
  annotations : List Annotation := []
  asns : List AsnEntry := []
  contacts : List Leaf := []
  national_certs : List Leaf := []
  networks : List NtmEntry := []
  fqdns : List NtmEntry := []
deriving DecidableEq, Repr

/-- Error taxonomy of serve.py (lines 131-149): `validation` models
`ValidationError`; `commit` models `CommitError` and any other Python
exception reaching the batch executor (both produce the generic
"Commit failed" response there). -/
inductive EngineError where
  | validation (errors : List String)
  | commit (msg : String)
deriving DecidableEq, Repr

/-- Model of `__db_query_annotations` (serve.py 417-436): the annotations attached to
`column_value`, ordered by the tag text of the annotation. -/
def annosFor (tbl : List (Nat × Annotation)) (v : Nat) : List Annotation :=
  sortBy (fun a b => decide (a.tag < b.tag))
    ((tbl.filter (fun r => r.1 == v)).map (fun r => r.2))

/-- One audit-log row as written by `__fix_annotations_to_table`. -/
def mkAudit (table_pre username operation affected_object : String)
    (before after : Option Annotation) : AuditRow :=
  ⟨table_pre ++ "_annotation", username, operation, table_pre,
    affected_object, before, after⟩

/-- Model of `__fix_annotations_to_table` (serve.py 566-623): reconcile the
annotations attached to `column_value` in the `table_pre ++ "_annotation"`
table to `annos_should`.  Returns the updated table and the audit rows
written — add audits, then remove audits, then change audits,
following the three loops of the source; deletions are executed only in
`cut` mode. -/
def fix_annotations_to_table (annos_should : List Annotation) (mode : String)
    (table_pre : String) (column_value : Nat) (affected_object : String)
    (username : String) (table : List (Nat × Annotation)) :
    List (Nat × Annotation) × List AuditRow :=
  let annos_are := annosFor table column_value
  let d := annotation_diff annos_are annos_should (mode == "cut")
  let table1 := table ++ d.add.map (fun e => (column_value, e.data))
  let addAudits := (d.add.filter (fun e => e.log)).map
    (fun e => mkAudit table_pre username "add" affected_object none
      (some e.data))
  let table2 :=
    if mode == "cut" then
      d.remove.foldl (fun t e =>
        t.filter (fun r => !(r.1 == column_value && r.2 == e.data))) table1
    else table1
  let removeAudits :=
    if mode == "cut" then
      (d.remove.filter (fun e => e.log)).map
        (fun e => mkAudit table_pre username "remove" affected_object
          (some e.data) none)
    else []
  let changeAudits := d.change.map
    (fun c => mkAudit table_pre username "change" affected_object
      (some c.before) (some c.after))
  (table2, addAudits ++ removeAudits ++ changeAudits)

/-- Model of `__fix_asns_to_org` (serve.py 626-674).  Unlike `__fix_ntms_to_org`
there is no duplicate-key skipping here: every element of `asns` is
processed in order (annotation reconciliation plus link creation), then one
bulk unlink of undesired asns and one bulk cleanup of annotations of asns
without any remaining link. -/
def fix_asns_to_org (asns : List AsnEntry) (mode : String) (org_id : Nat)
    (username : String) (s : DBState) : DBState :=
  let s1 := asns.foldl (fun st a =>
    let fa := fix_annotations_to_table a.annotations mode
      "autonomous_system" a.asn (toString a.asn) username st.asn_annotations
    let st := { st with asn_annotations := fa.1,
                        audit_log := st.audit_log ++ fa.2 }
    if st.org_to_asn.contains (org_id, a.asn) then st
    else { st with org_to_asn := st.org_to_asn ++ [(org_id, a.asn)] }) s
  let s2 := { s1 with org_to_asn := s1.org_to_asn.filter (fun l =>
    !(l.1 == org_id &&
      !((asns.map (fun (a : AsnEntry) => a.asn)).contains l.2))) }
  { s2 with asn_annotations := s2.asn_annotations.filter (fun r =>
    (s2.org_to_asn.map (fun (l : Nat × Nat) => l.2)).contains r.1) }

/-- The `log.info` message of `__fix_ntms_to_org` when a duplicate business
key in the desired list is discarded (serve.py 724-729). -/
def dupLogMsg (key : String) : String :=
  key ++ " already exists, throwing away the duplicate entry"

/-- Phase 1 of `__fix_ntms_to_org` (serve.py 702-716): for every currently
linked entry whose key is no longer desired, cut its annotations and delete
the join record. -/
def ntmUnlinkSuperfluous (superfluous : List NtmEntry) (table_name : String)
    (org_id : Nat) (username : String) (t : NtmTables) :
    NtmTables × List AuditRow :=
  superfluous.foldl (fun (p : NtmTables × List AuditRow) e =>
    let fa := fix_annotations_to_table [] "cut" table_name (e.id.getD 0)
      e.key username p.1.annotations
    ({ p.1 with annotations := fa.1,
                links := p.1.links.filter (fun l =>
                  !(l.1 == org_id && l.2 == e.id.getD 0)) },
      p.2 ++ fa.2)) (t, [])

/-- Phase 2 of `__fix_ntms_to_org` (serve.py 718-750): create and link the
missing entries in desired order, skipping duplicate business keys — the
first occurrence wins, later ones only produce a log message.  Returns the
updated tables, audit rows, log messages and the keys added. -/
def ntmCreateMissing (missing : List NtmEntry) (table_name : String)
    (org_id : Nat) (username : String) (t : NtmTables) :
    NtmTables × List AuditRow × List String × List String :=
  missing.foldl
    (fun (acc : NtmTables × List AuditRow × List String × List String)
        (e : NtmEntry) =>
    match acc with
    | (t, au, infos, already) =>
      if already.contains e.key then
        (t, au, infos ++ [dupLogMsg e.key], already)
      else
        let newId := t.next_id
        let t1 := { t with
          rows := t.rows ++ [NtmRow.mk newId e.key e.comment],
          next_id := newId + 1 }
        let fa := fix_annotations_to_table e.annotations "add" table_name
          newId e.key username t1.annotations
        let t2 := { t1 with annotations := fa.1,
                            links := t1.links ++ [(org_id, newId)] }
        (t2, au ++ fa.2, infos, already ++ [e.key])) (t, [], [], [])

/-- Phase 3 of `__fix_ntms_to_org` (serve.py 752-773): for entries present
on both sides update the comment to the desired value (first desired entry
with a matching key wins) and reconcile the annotations in cut mode. -/
def ntmUpdateExisting (existing ntms_should : List NtmEntry)
    (table_name : String) (username : String) (t : NtmTables) :
    NtmTables × List AuditRow :=
  existing.foldl (fun (p : NtmTables × List AuditRow) e_is =>
    match ntms_should.find? (fun n => n.key == e_is.key) with
    | none => p
    | some e_should =>
      let t1 := { p.1 with rows := p.1.rows.map (fun (r : NtmRow) =>
        if r.id == e_is.id.getD 0 then { r with comment := e_should.comment }
        else r) }
      let fa := fix_annotations_to_table e_should.annotations "cut"
        table_name (e_is.id.getD 0) e_is.key username t1.annotations
      ({ t1 with annotations := fa.1 }, p.2 ++ fa.2)) (t, [])

/-- Final statement of `__fix_ntms_to_org` (serve.py 775-783): delete every
entry row with no join record pointing at it — a global cleanup, not scoped
to the current organisation. -/
def pruneNtm (t : NtmTables) : NtmTables :=
  { t with rows := t.rows.filter (fun r =>
      t.links.any (fun l => l.2 == r.id)) }

/-- Model of `__fix_ntms_to_org` (serve.py 677-783). -/
def fix_ntms_to_org (ntms_should ntms_are : List NtmEntry)
    (table_name : String) (org_id : Nat) (username : String)
    (t : NtmTables) : NtmTables × List AuditRow × List String :=
  let values_should := ntms_should.map (fun n => n.key)
  let values_are := ntms_are.map (fun n => n.key)
  let p1 := ntmUnlinkSuperfluous
    (ntms_are.filter (fun n => !(values_should.contains n.key)))
    table_name org_id username t
  let p2 := ntmCreateMissing
    (ntms_should.filter (fun n => !(values_are.contains n.key)))
    table_name org_id username p1.1
  let p3 := ntmUpdateExisting
    (ntms_are.filter (fun n => values_should.contains n.key)) ntms_should
    table_name username p2.1
  (pruneNtm p3.1, p1.2 ++ p2.2.1 ++ p3.2, p2.2.2.1)

/-- A `leaf.get(attr)`-style lookup on the dict model: `none` = key absent,
`some none` = key present with value `null`. -/
def dictLookup (l : Leaf) (k : String) : Option (Option String) :=
  (l.find? (fun kv => kv.1 == k)).map (fun kv => kv.2)

/-- The stored value of an attribute (defined on validated leaves). -/
def leafValue (l : Leaf) (k : String) : String :=
  ((dictLookup l k).getD none).getD ""

/-- The row inserted by `__fix_leafnodes_to_org`: all mandatory attributes
plus the parent organisation id. -/
def mkLeafRow (needed : List String) (org_id : Nat) (l : Leaf) : LeafRow :=
  ⟨needed.map (fun a => (a, leafValue l a)), org_id⟩

/-- Validation of one attribute of a leaf (serve.py 806-810): present and
not null (the empty string is fine). -/
def leafAttrOk (l : Leaf) (a : String) : Bool :=
  match dictLookup l a with
  | some (some _) => true
  | _ => false

/-- Model of `__fix_leafnodes_to_org` (serve.py 786-822): delete all leaf rows of the
parent, then walk the desired records in order — for each, check the
mandatory attributes (raising `CommitError("{attr} not set")` at the first
violation) and insert it tagged with the parent id. -/
def fix_leafnodes_to_org (leafs : List Leaf) (needed : List String)
    (org_id : Nat) (rows : List LeafRow) : Except String (List LeafRow) :=
  let cleared := rows.filter (fun r => !(r.organisation_id == org_id))
  leafs.foldl (fun acc leaf =>
    match acc with
    | .error e => .error e
    | .ok rs =>
      match needed.find? (fun a => !(leafAttrOk leaf a)) with
      | some a => .error (a ++ " not set")
      | none => .ok (rs ++ [mkLeafRow needed org_id leaf])) (.ok cleared)

/-- Read-back of a stored leaf row (`SELECT *` returns every stored column,
including `organisation_id`). -/
def leafRowToLeaf (r : LeafRow) : Leaf :=
  r.fields.map (fun kv => (kv.1, some kv.2)) ++
    [("organisation_id", some (toString r.organisation_id))]

/-- Model of `__db_query_org(org_id, "")` (serve.py 298-414): assemble the full
aggregate of an organisation; `none` when the id does not exist.  The SQL
`ORDER BY` clauses become sorts by asn, `lower(email)`,
`lower(country_code)`, address and `lower(fqdn)` respectively (the inet
ordering of addresses is modelled as the string order of the CIDR text). -/
def db_query_org (s : DBState) (org_id : Nat) : Option Org :=
  (s.organisations.find? (fun r => r.organisation_id == org_id)).map
    (fun row =>
      { organisation_id := some row.organisation_id,
        name := row.name, comment := row.comment,
        ripe_org_hdl := row.ripe_org_hdl, ti_handle := row.ti_handle,
        first_handle := row.first_handle, sector_id := row.sector_id,
        annotations := annosFor s.org_annotations org_id,
        asns := (sortBy (fun a b => decide (a < b))
            ((s.org_to_asn.filter (fun l => l.1 == org_id)).map
              (fun l => l.2))).map
          (fun a => { asn := a, organisation_id := some org_id,
                      annotations := annosFor s.asn_annotations a }),
        contacts := sortBy (fun a b =>
            decide ((leafValue a "email").toLower <
              (leafValue b "email").toLower))
          ((s.contacts.filter (fun r => r.organisation_id == org_id)).map
            leafRowToLeaf),
        national_certs := sortBy (fun a b =>
            decide ((leafValue a "country_code").toLower <
              (leafValue b "country_code").toLower))
          ((s.national_certs.filter
            (fun r => r.organisation_id == org_id)).map leafRowToLeaf),
        networks := (sortBy (fun (a b : NtmRow) => decide (a.key < b.key))
            (s.network.rows.filter (fun r =>
              s.network.links.contains (org_id, r.id)))).map
          (fun r => { id := some r.id, key := r.key, comment := r.comment,
                      annotations := annosFor s.network.annotations r.id }),
        fqdns := (sortBy (fun (a b : NtmRow) =>
              decide (a.key.toLower < b.key.toLower))
            (s.fqdn.rows.filter (fun r =>
              s.fqdn.links.contains (org_id, r.id)))).map
          (fun r => { id := some r.id, key := r.key, comment := r.comment,
                      annotations := annosFor s.fqdn.annotations r.id }) })

/-- The normalisation step of `_compare_org` (serve.py 1050-1062): remove
`expires` keys whose value is the empty string. -/
def normAnno (a : Annotation) : Annotation :=
  if a.expires == some "" then { a with expires := none } else a

/-- The normalisation of `_compare_org` applied to a whole aggregate: org-level
annotations and the annotations of asns, fqdns and networks (contacts and
national certs carry no annotations). -/
def normOrg (o : Org) : Org :=
  { o with annotations := o.annotations.map normAnno,
           asns := o.asns.map (fun a =>
             { a with annotations := a.annotations.map normAnno }),
           fqdns := o.fqdns.map (fun n =>
             { n with annotations := n.annotations.map normAnno }),
           networks := o.networks.map (fun n =>
             { n with annotations := n.annotations.map normAnno }) }

/-- Python dict equality for a leaf: same key set, equal values; the order
of the association list is irrelevant. -/
def leafEqDict (a b : Leaf) : Bool :=
  a.all (fun kv => dictLookup b kv.1 == dictLookup a kv.1) &&
    b.all (fun kv => dictLookup a kv.1 == dictLookup b kv.1)

/-- Python list equality for two lists of leaf dicts. -/
def leafListEq (xs ys : List Leaf) : Bool :=
  xs.length == ys.length && (xs.zip ys).all (fun p => leafEqDict p.1 p.2)

/-- Python `==` between two aggregate dicts. -/
def orgEqDict (a b : Org) : Bool :=
  a.organisation_id == b.organisation_id && a.name == b.name &&
    a.comment == b.comment && a.ripe_org_hdl == b.ripe_org_hdl &&
    a.ti_handle == b.ti_handle && a.first_handle == b.first_handle &&
    a.sector_id == b.sector_id && a.annotations == b.annotations &&
    a.asns == b.asns && leafListEq a.contacts b.contacts &&
    leafListEq a.national_certs b.national_certs &&
    a.networks == b.networks && a.fqdns == b.fqdns

/-- Model of `_compare_org` (serve.py 1040-1064): equality of the two aggregates
after normalising empty-string expiry fields away on both sides. -/
def compare_org (org_a org_b : Org) : Bool :=
  orgEqDict (normOrg org_a) (normOrg org_b)

/-- Annotation item of `create_org_schema`: `tag` with minLength 1 (the
other constraints are enforced by the `Annotation` type itself). -/
def annoSchemaOk (a : Annotation) : Bool := !(a.tag == "")

/-- Contact item of `create_org_schema`: the six required string fields
present and non-null. -/
def contactSchemaOk (c : Leaf) : Bool :=
  ["firstname", "lastname", "email", "tel", "comment", "openpgp_fpr"].all
    (fun a => leafAttrOk c a)

/-- National-cert item of `create_org_schema`: `country_code` present,
matching `^[a-zA-Z]{2}$`. -/
def ncertSchemaOk (c : Leaf) : Bool :=
  leafAttrOk c "country_code" &&
    (leafValue c "country_code").length == 2 &&
    (leafValue c "country_code").all Char.isAlpha

/-- Model of `create_org_schema` validation (serve.py 825-934) restricted to the
violations representable in the typed aggregate: empty `name`, empty
annotation tags, empty network/fqdn business keys, missing/null contact
fields and malformed country codes.  (Type errors and missing required keys
of the JSON encoding cannot be represented in `Org`.) -/
def create_org_schema_ok (org : Org) : Bool :=
  !(org.name == "") && org.annotations.all annoSchemaOk &&
    org.asns.all (fun a => a.annotations.all annoSchemaOk) &&
    org.contacts.all contactSchemaOk &&
    org.fqdns.all (fun f =>
      !(f.key == "") && f.annotations.all annoSchemaOk) &&
    org.networks.all (fun n =>
      !(n.key == "") && n.annotations.all annoSchemaOk) &&
    org.national_certs.all ncertSchemaOk

/-- Model of `_create_org` (serve.py 913-977). -/
def create_org (org : Org) (username : String) (s : DBState) :
    Except EngineError (Nat × DBState) := do
  if !(create_org_schema_ok org) then
    throw (.validation ["schema validation failed"])
  if org.name == "" then
    throw (.commit "Name of the organisation must be provided.")
  let new_org_id := s.next_org_id
  let s := { s with
    organisations := s.organisations ++
      [OrgRow.mk new_org_id org.name org.comment org.ripe_org_hdl
        org.ti_handle org.first_handle org.sector_id],
    next_org_id := new_org_id + 1 }
  let fa := fix_annotations_to_table org.annotations "add" "organisation"
    new_org_id org.name username s.org_annotations
  let s := { s with org_annotations := fa.1,
                    audit_log := s.audit_log ++ fa.2 }
  let s := fix_asns_to_org org.asns "add" new_org_id username s
  let contacts ← (fix_leafnodes_to_org org.contacts
    ["firstname", "lastname", "tel", "openpgp_fpr", "email", "comment"]
    new_org_id s.contacts).mapError EngineError.commit
  let s := { s with contacts := contacts }
  let ncerts ← (fix_leafnodes_to_org org.national_certs
    ["country_code", "comment"] new_org_id s.national_certs).mapError
    EngineError.commit
  let s := { s with national_certs := ncerts }
  let pn := fix_ntms_to_org org.networks [] "network" new_org_id username
    s.network
  let s := { s with network := pn.1, audit_log := s.audit_log ++ pn.2.1,
                    info_log := s.info_log ++ pn.2.2 }
  let pf := fix_ntms_to_org org.fqdns [] "fqdn" new_org_id username s.fqdn
  let s := { s with fqdn := pf.1, audit_log := s.audit_log ++ pf.2.1,
                    info_log := s.info_log ++ pf.2.2 }
  return (new_org_id, s)

/-- Model of `_update_org` (serve.py 980-1037).  The networks/fqdns "current" lists
come from a single re-read of the aggregate taken after the asn and leaf
changes. -/
def update_org (org : Org) (username : String) (s : DBState) :
    Except EngineError (Nat × DBState) := do
  match org.organisation_id with
  | none => throw (.commit "KeyError: organisation_id")
  | some org_id =>
    match db_query_org s org_id with
    | none => throw (.commit
        ("Org " ++ toString org_id ++ " to be updated not in db."))
    | some org_in_db =>
      if org.name == "" then
        throw (.commit "Name of the organisation must be provided.")
      let fa := fix_annotations_to_table org.annotations "cut"
        "organisation" org_id org_in_db.name username s.org_annotations
      let s := { s with org_annotations := fa.1,
                        audit_log := s.audit_log ++ fa.2 }
      let s := fix_asns_to_org org.asns "cut" org_id username s
      let contacts ← (fix_leafnodes_to_org org.contacts
        ["firstname", "lastname", "tel", "openpgp_fpr", "email", "comment"]
        org_id s.contacts).mapError EngineError.commit
      let s := { s with contacts := contacts }
      let ncerts ← (fix_leafnodes_to_org org.national_certs
        ["country_code", "comment"] org_id s.national_certs).mapError
        EngineError.commit
      let s := { s with national_certs := ncerts }
      let org_so_far := db_query_org s org_id
      let networks_are := org_so_far.elim [] (fun o => o.networks)
      let pn := fix_ntms_to_org org.networks networks_are "network" org_id
        username s.network
      let s := { s with network := pn.1,
                        audit_log := s.audit_log ++ pn.2.1,
                        info_log := s.info_log ++ pn.2.2 }
      let fqdns_are := org_so_far.elim [] (fun o => o.fqdns)
      let pf := fix_ntms_to_org org.fqdns fqdns_are "fqdn" org_id username
        s.fqdn
      let s := { s with fqdn := pf.1, audit_log := s.audit_log ++ pf.2.1,
                        info_log := s.info_log ++ pf.2.2 }
      let s := { s with organisations := s.organisations.map (fun r =>
        if r.organisation_id == org_id then
          { r with name := org.name, sector_id := org.sector_id,
                   comment := org.comment, ripe_org_hdl := org.ripe_org_hdl,
                   ti_handle := org.ti_handle,
                   first_handle := org.first_handle }
        else r) }
      return (org_id, s)

/-- Model of `_delete_org` (serve.py 1067-1105): check the caller-supplied aggregate
against the stored one via `_compare_org`, then cut asns, contacts,
networks, fqdns, national certs and org-level annotations in that order and
delete the organisation row.  Returns the deleted id only when exactly one
row was removed (otherwise Python falls off the end, returning `None`). -/
def delete_org (org : Org) (username : String) (s : DBState) :
    Except EngineError (Option Nat × DBState) := do
  match org.organisation_id with
  | none => throw (.commit "KeyError: organisation_id")
  | some org_id_rm =>
    match db_query_org s org_id_rm with
    | none => throw (.commit "KeyError on empty org dict")
    | some org_in_db =>
      if !(compare_org org_in_db org) then
        throw (.commit "Org to be deleted differs from db entry.")
      let s := fix_asns_to_org [] "cut" org_id_rm username s
      let contacts ← (fix_leafnodes_to_org [] [] org_id_rm
        s.contacts).mapError EngineError.commit
      let s := { s with contacts := contacts }
      let org_is := db_query_org s org_id_rm
      let networks_are := org_is.elim [] (fun o => o.networks)
      let pn := fix_ntms_to_org [] networks_are "network" org_id_rm username
        s.network
      let s := { s with network := pn.1,
                        audit_log := s.audit_log ++ pn.2.1,
                        info_log := s.info_log ++ pn.2.2 }
      let fqdns_are := org_is.elim [] (fun o => o.fqdns)
      let pf := fix_ntms_to_org [] fqdns_are "fqdn" org_id_rm username
        s.fqdn
      let s := { s with fqdn := pf.1, audit_log := s.audit_log ++ pf.2.1,
                        info_log := s.info_log ++ pf.2.2 }
      let ncerts ← (fix_leafnodes_to_org [] [] org_id_rm
        s.national_certs).mapError EngineError.commit
      let s := { s with national_certs := ncerts }
      let fa := fix_annotations_to_table [] "cut" "organisation" org_id_rm
        org_in_db.name username s.org_annotations
      let s := { s with org_annotations := fa.1,
                        audit_log := s.audit_log ++ fa.2 }
      let affected := (s.organisations.filter (fun r =>
        r.organisation_id == org_id_rm)).length
      let s := { s with organisations := s.organisations.filter (fun r =>
        !(r.organisation_id == org_id_rm)) }
      return (if affected == 1 then some org_id_rm else none, s)

/-- The HTTP-level outcome of `commit_pending_org_changes`
(serve.py 1398-1446). -/
inductive CommitResponse where
  | badRequestNeedsArrays
  | badRequestUnknownCommand
  | validationFailed (errors : List String)
  | commitFailed (msg : String)
  | success (results : List (String × Option Nat))
deriving DecidableEq, Repr

/-- Dispatch of one command through the `known_commands` function table
(serve.py 1413-1417, 1428). -/
def run_command (command : String) (org : Org) (username : String)
    (s : DBState) : Except EngineError (Option Nat × DBState) :=
  match command with
  | "create" => (create_org org username s).map (fun p => (some p.1, p.2))
  | "update" => (update_org org username s).map (fun p => (some p.1, p.2))
  | "delete" => delete_org org username s
  | _ => .error (.commit "unknown command")

/-- Body loop of `commit_pending_org_changes` (serve.py 1425-1442).
Because `_db_query`/`_db_manipulate` commit after every single statement
(lines 232, 263) and the endpoint performs no rollback, a failing command
leaves the effects of all previously completed commands in the database;
the executor merely catches the exception and reports a structured
failure.  (The partially committed statements of the failing command itself are not
representable here — the model is, if anything, more atomic than the
source.) -/
def runCommands : List (String × Org) → String → DBState →
    List (String × Option Nat) → CommitResponse × DBState
  | [], _, s, acc => (.success acc, s)
  | (c, o) :: rest, username, s, acc =>
    match run_command c o username s with
    | .ok (r, s1) => runCommands rest username s1 (acc ++ [(c, r)])
    | .error (.validation msgs) => (.validationFailed msgs, s)
    | .error (.commit m) => (.commitFailed m, s)

/-- Model of `commit_pending_org_changes` (serve.py 1398-1446). -/
def commit_pending_org_changes (commands : List String) (orgs : List Org)
    (username : String) (s : DBState) : CommitResponse × DBState :=
  if commands.isEmpty || orgs.isEmpty ||
      !(commands.length == orgs.length) then
    (.badRequestNeedsArrays, s)
  else if !(commands.all (fun c =>
      c == "create" || c == "update" || c == "delete")) then
    (.badRequestUnknownCommand, s)
  else
    runCommands (commands.zip orgs) username s []

/-- Specification-side predicate (spec §4.2): a leaf record has every
mandatory field present and non-null. -/
def leafComplete (needed : List String) (l : Leaf) : Bool :=
  needed.all (fun a => leafAttrOk l a)

/-- Specification-side function (spec §4.2): the mandatory field named by
the validation failure — the first missing/null attribute of the first
incomplete leaf record, if any. -/
def firstLeafError (needed : List String) (leafs : List Leaf) :
    Option String :=
  (leafs.find? (fun l => !(leafComplete needed l))).bind
    (fun l => needed.find? (fun a => !(leafAttrOk l a)))

/-- Fixture: a database holding one organisation (id 1, name "O") with one
org-level annotation whose `expires` key is absent. -/
def witnessDeleteState : DBState :=
  ⟨[OrgRow.mk 1 "O" "" "" "" "" none], 2, [(1, ⟨"x", none, none⟩)], [], [],
    ⟨[], [], [], 1⟩, ⟨[], [], [], 1⟩, [], [], [], []⟩

/-- Fixture: the caller-supplied aggregate for deleting organisation 1,
identical to the stored aggregate except that its annotation carries
`expires = ""` where the stored one has no expires field. -/
def witnessDeleteOrg : Org :=
  { organisation_id := some 1, name := "O",
    annotations := [⟨"x", none, some ""⟩] }

/-- Fixture: the aggregate `__db_query_org` returns for organisation 1 of
`witnessDeleteState`. -/
def witnessDeleteStored : Org :=
  { organisation_id := some 1, name := "O",
    annotations := [⟨"x", none, none⟩] }

/-- The database state `_delete_org` has reached when it re-reads the
aggregate (`org_is`, serve.py 1087): asn links and annotations of the
organisation cut, contact rows deleted. -/
def delete_org_midState (org_id : Nat) (s : DBState) : DBState :=
  { s with
    org_to_asn := s.org_to_asn.filter (fun l => !(l.1 == org_id)),
    asn_annotations := s.asn_annotations.filter (fun r =>
      ((s.org_to_asn.filter (fun l => !(l.1 == org_id))).map
        (fun (l : Nat × Nat) => l.2)).contains r.1),
    contacts := s.contacts.filter (fun r =>
      !(r.organisation_id == org_id)) }

/-- The state and the per-phase audit rows `_delete_org` produces once its
stale-state check has passed, spelled out phase by phase.  Established
against `delete_org` by `delete_org_pipeline_correct`. -/
def delete_org_pipeline (stored : Org) (org_id : Nat) (u : String)
    (s : DBState) :
    DBState × List AuditRow × List AuditRow × List AuditRow :=
  let org_is := db_query_org (delete_org_midState org_id s) org_id
  let pn := fix_ntms_to_org [] (org_is.elim [] (fun o => o.networks))
    "network" org_id u s.network
  let pf := fix_ntms_to_org [] (org_is.elim [] (fun o => o.fqdns))
    "fqdn" org_id u s.fqdn
  let fa := fix_annotations_to_table [] "cut" "organisation" org_id
    stored.name u s.org_annotations
  ({ organisations := s.organisations.filter (fun r =>
       !(r.organisation_id == org_id)),
     next_org_id := s.next_org_id,
     org_annotations := fa.1,
     asn_annotations := (delete_org_midState org_id s).asn_annotations,
     org_to_asn := (delete_org_midState org_id s).org_to_asn,
     network := pn.1,
     fqdn := pf.1,
     contacts := (delete_org_midState org_id s).contacts,
     national_certs := s.national_certs.filter (fun r =>
       !(r.organisation_id == org_id)),
     audit_log := s.audit_log ++ pn.2.1 ++ pf.2.1 ++ fa.2,
     info_log := s.info_log ++ pn.2.2 ++ pf.2.2 },
   pn.2.1, pf.2.1, fa.2)

/-- Fixture for C8: one organisation with an org-level annotation and one
linked, annotated network. -/
def witnessOrderState : DBState :=
  ⟨[OrgRow.mk 1 "O" "" "" "" "" none], 2, [(1, ⟨"orgtag", none, none⟩)],
    [], [],
    ⟨[NtmRow.mk 5 "10.0.0.0/8" ""], [(1, 5)],
      [(5, ⟨"nettag", none, none⟩)], 6⟩,
    ⟨[], [], [], 1⟩, [], [], [], []⟩

/-- Fixture for C8: the caller-supplied aggregate matching
organisation 1 of `witnessOrderState` exactly. -/
def witnessOrderOrg : Org :=
  { organisation_id := some 1, name := "O",
    annotations := [⟨"orgtag", none, none⟩],
    networks := [⟨some 5, "10.0.0.0/8", "", [⟨"nettag", none, none⟩]⟩] }

-- Sanity checks on small inputs (spec §8 "Diff correctness").
example :
    annotation_diff [] [⟨"x", none, none⟩] true =
      ⟨[⟨⟨"x", none, none⟩, true⟩], [], []⟩ := by decide

example :
    annotation_diff [⟨"x", none, none⟩] [] true =
      ⟨[], [⟨⟨"x", none, none⟩, true⟩], []⟩ := by decide

example :
    annotation_diff [⟨"x", none, none⟩] [⟨"x", none, none⟩] true =
      ⟨[], [], []⟩ := by decide

theorem insertSorted_perm {α : Type} (lt : α → α → Bool) (x : α)
    (l : List α) : (insertSorted lt x l).Perm (x :: l) := by
  induction l with
  | nil => exact List.Perm.refl _
  | cons y ys ih =>
    simp only [insertSorted]
    split
    · exact List.Perm.refl _
    · exact (ih.cons y).trans (List.Perm.swap x y ys)

theorem sortBy_cons {α : Type} (lt : α → α → Bool) (x : α) (xs : List α) :
    sortBy lt (x :: xs) = insertSorted lt x (sortBy lt xs) := rfl

theorem sortBy_perm {α : Type} (lt : α → α → Bool) (l : List α) :
    (sortBy lt l).Perm l := by
  induction l with
  | nil => exact List.Perm.refl _
  | cons x xs ih =>
    rw [sortBy_cons]
    exact (insertSorted_perm lt x (sortBy lt xs)).trans (ih.cons x)

theorem sortedSetDiff_perm (xs ys : List Annotation) :
    (sortedSetDiff xs ys).Perm
      ((xs.dedup).filter (fun a => decide (a ∉ ys))) :=
  sortBy_perm _ _

theorem sortedSetDiff_nodup (xs ys : List Annotation) :
    (sortedSetDiff xs ys).Nodup :=
  ((sortedSetDiff_perm xs ys).symm).nodup
    (List.Nodup.filter _ (List.nodup_dedup xs))

theorem mem_sortedSetDiff {a : Annotation} {xs ys : List Annotation} :
    a ∈ sortedSetDiff xs ys ↔ a ∈ xs ∧ a ∉ ys := by
  rw [(sortedSetDiff_perm xs ys).mem_iff]
  simp [List.mem_filter, List.mem_dedup]

/-- C3: for every annotation collection `A` and both values of the
modification-detection flag, diffing `A` against itself yields empty
`add`, `remove` and `change` lists. -/
theorem annotation_diff_self (A : List Annotation) (detect : Bool) :
    annotation_diff A A detect = ⟨[], [], []⟩ := by
  have h1 : sortedSetDiff A A = [] := by
    have hf : A.dedup.filter (fun a => !decide (a ∈ A)) = [] := by
      rw [List.filter_eq_nil_iff]
      intro a ha
      simp [List.mem_dedup.mp ha]
    simp [sortedSetDiff, hf, sortAnnos, sortBy]
  have h2 : A.filter (fun a => decide (a ∉ A)) = [] := by
    rw [List.filter_eq_nil_iff]
    intro a ha
    simp [ha]
  by_cases hc : ANNOTATION_DIFF_MAX ≤ A.length + A.length <;>
    cases detect <;>
      simp [annotation_diff, hc, h1, h2, diffLoop1, diffLoop2]

/-- C2: when both collections are singletons whose elements agree except on
the `expires` field, the diff with detection on returns exactly one change
entry together with one add and one remove entry, both with `log = false`. -/
theorem annotation_diff_modification_pair (x y : Annotation)
    (hm : stripExpires x = stripExpires y) (hne : x ≠ y) :
    annotation_diff [x] [y] true =
      ⟨[⟨y, false⟩], [⟨x, false⟩], [⟨x, y⟩]⟩ := by
  have hfind : (stripExpires y == stripExpires x) = true := by simp [hm]
  have hyx : y ≠ x := Ne.symm hne
  simp [annotation_diff, ANNOTATION_DIFF_MAX, sortedSetDiff, sortAnnos,
    sortBy, insertSorted, hne, hyx, diffLoop1, diffLoop2, hfind]

/-- Witness for C2 at the concrete example of the spec. -/
theorem annotation_diff_modification_pair_witness :
    stripExpires ⟨"1", none, some ""⟩ =
        stripExpires ⟨"1", none, some "2024-01-01"⟩ ∧
      (⟨"1", none, some ""⟩ : Annotation) ≠ ⟨"1", none, some "2024-01-01"⟩ ∧
      annotation_diff [⟨"1", none, some ""⟩] [⟨"1", none, some "2024-01-01"⟩]
          true =
        ⟨[⟨⟨"1", none, some "2024-01-01"⟩, false⟩],
         [⟨⟨"1", none, some ""⟩, false⟩],
         [⟨⟨"1", none, some ""⟩, ⟨"1", none, some "2024-01-01"⟩⟩]⟩ :=
  ⟨by decide, by decide,
    annotation_diff_modification_pair _ _ (by decide) (by decide)⟩

/-- C4: once the sizes of the two collections sum to at least
`ANNOTATION_DIFF_MAX = 20`, the diff is forced into the detection-off
algorithm (adds and removes by plain membership, all `log = true`, no
changes), the result is the same as an explicit `detect = false` call, and
the warning condition fires. -/
theorem annotation_diff_cutoff (are should : List Annotation) (detect : Bool)
    (h : ANNOTATION_DIFF_MAX ≤ are.length + should.length) :
    annotation_diff are should detect =
        ⟨(should.filter (fun a => decide (a ∉ are))).map (fun a => ⟨a, true⟩),
         (are.filter (fun a => decide (a ∉ should))).map (fun a => ⟨a, true⟩),
         []⟩ ∧
      annotation_diff are should true = annotation_diff are should false ∧
      annotation_diff_warns are should = true := by
  refine ⟨by simp [annotation_diff, h], by simp [annotation_diff, h], ?_⟩
  simp [annotation_diff_warns, h]

/-- Witness for C4 with 20 identical annotations. -/
theorem annotation_diff_cutoff_witness :
    ANNOTATION_DIFF_MAX ≤
        (List.replicate 20 (⟨"t", none, none⟩ : Annotation)).length +
          ([] : List Annotation).length ∧
      annotation_diff (List.replicate 20 ⟨"t", none, none⟩) [] true =
        annotation_diff (List.replicate 20 ⟨"t", none, none⟩) [] false :=
  ⟨by decide,
    (annotation_diff_cutoff (List.replicate 20 ⟨"t", none, none⟩) [] true
      (by decide)).2.1⟩

theorem diffLoop1_remove_data (iter tr ta : List Annotation) :
    ((diffLoop1 iter tr ta).remove.map (fun e => e.data)) = iter := by
  induction iter generalizing tr ta with
  | nil => rfl
  | cons anno rest ih =>
    cases hf : ta.find? (fun c => stripExpires c == stripExpires anno) with
    | some partner => simp [diffLoop1, hf, ih]
    | none => simp [diffLoop1, hf, ih]

theorem diffLoop1_add_perm (iter tr ta : List Annotation) :
    (((diffLoop1 iter tr ta).add.map (fun e => e.data)) ++
        (diffLoop1 iter tr ta).taFinal).Perm ta := by
  induction iter generalizing tr ta with
  | nil => simp [diffLoop1]
  | cons anno rest ih =>
    cases hf : ta.find? (fun c => stripExpires c == stripExpires anno) with
    | some partner =>
      have hp : partner ∈ ta := List.mem_of_find?_eq_some hf
      simp only [diffLoop1, hf, List.map_cons, List.cons_append]
      exact ((ih (tr.erase anno) (ta.erase partner)).cons partner).trans
        (List.perm_cons_erase hp).symm
    | none =>
      simp only [diffLoop1, hf]
      exact ih tr ta

theorem diffLoop1_no_partner (iter : List Annotation) :
    ∀ (tr ta : List Annotation), tr.Nodup →
      (∀ a ∈ tr, a ∈ iter ∨ ∀ b ∈ ta, stripExpires a ≠ stripExpires b) →
      ∀ a ∈ (diffLoop1 iter tr ta).trFinal,
        ∀ b ∈ (diffLoop1 iter tr ta).taFinal,
          stripExpires a ≠ stripExpires b := by
  induction iter with
  | nil =>
    intro tr ta _ hinv a ha b hb
    rcases hinv a ha with h | h
    · exact absurd h (List.not_mem_nil a)
    · exact h b hb
  | cons anno rest ih =>
    intro tr ta hnd hinv
    cases hf : ta.find? (fun c => stripExpires c == stripExpires anno) with
    | some partner =>
      simp only [diffLoop1, hf]
      apply ih
      · exact hnd.erase anno
      · intro a ha
        rcases (hnd.mem_erase_iff).mp ha with ⟨hne, hmem⟩
        rcases hinv a hmem with hil | hr
        · rcases List.mem_cons.mp hil with rfl | hmem2
          · exact absurd rfl hne
          · exact Or.inl hmem2
        · exact Or.inr (fun b hb => hr b (List.mem_of_mem_erase hb))
    | none =>
      simp only [diffLoop1, hf]
      apply ih
      · exact hnd
      · intro a ha
        rcases hinv a ha with hil | hr
        · rcases List.mem_cons.mp hil with rfl | hmem2
          · refine Or.inr (fun b hb hEq => ?_)
            have hb2 := List.find?_eq_none.mp hf b hb
            simp only [beq_iff_eq] at hb2
            exact hb2 hEq.symm
          · exact Or.inl hmem2
        · exact Or.inr hr

theorem diffLoop2_no_partner (iter : List Annotation) :
    ∀ tr : List Annotation,
      (∀ b ∈ iter, ∀ a ∈ tr, stripExpires a ≠ stripExpires b) →
      diffLoop2 iter tr = ⟨iter.map (fun a => ⟨a, true⟩), [], []⟩ := by
  induction iter with
  | nil => intro tr _; rfl
  | cons anno rest ih =>
    intro tr h
    have hf : tr.find? (fun c => stripExpires c == stripExpires anno)
        = none := by
      rw [List.find?_eq_none]
      intro c hc
      simp only [beq_iff_eq]
      exact h anno (List.mem_cons_self anno rest) c hc
    simp only [diffLoop2, hf, List.map_cons]
    rw [ih tr (fun b hb a ha => h b (List.mem_cons_of_mem _ hb) a ha)]

theorem diffLoop1_change_struct (iter tr ta : List Annotation) :
    ((diffLoop1 iter tr ta).remove.filter (fun e => !e.log)).map
        (fun e => e.data) =
        (diffLoop1 iter tr ta).change.map (fun c => c.before) ∧
      (diffLoop1 iter tr ta).add.map (fun e => e.data) =
        (diffLoop1 iter tr ta).change.map (fun c => c.after) ∧
      ∀ e ∈ (diffLoop1 iter tr ta).add, e.log = false := by
  induction iter generalizing tr ta with
  | nil => exact ⟨rfl, rfl, by simp [diffLoop1]⟩
  | cons anno rest ih =>
    cases hf : ta.find? (fun c => stripExpires c == stripExpires anno) with
    | some partner =>
      obtain ⟨h1, h2, h3⟩ := ih (tr.erase anno) (ta.erase partner)
      refine ⟨?_, ?_, ?_⟩
      · simp [diffLoop1, hf, h1]
      · simp [diffLoop1, hf, h2]
      · intro e he
        simp only [diffLoop1, hf, List.mem_cons] at he
        rcases he with rfl | he
        · rfl
        · exact h3 e he
    | none =>
      obtain ⟨h1, h2, h3⟩ := ih tr ta
      refine ⟨?_, ?_, ?_⟩
      · simp [diffLoop1, hf, h1]
      · simp [diffLoop1, hf, h2]
      · intro e he
        simp only [diffLoop1, hf] at he
        exact h3 e he

/-- C10: in modification-detection mode (sizes below the cutoff), the data of
the `remove` entries is a permutation of the distinct current-minus-desired
annotations and the data of the `add` entries a permutation of the distinct
desired-minus-current annotations (so each occurs exactly once and nothing
is emitted twice); the `change` entries line up one-to-one with the
`log=false` `remove` and `add` entries; and the pairing branch of the second
loop never fires — it degenerates to emitting the leftover `to_add` items as
plain adds with `log=true`. -/
theorem annotation_diff_detection_invariants
    (are should : List Annotation)
    (h : are.length + should.length < ANNOTATION_DIFF_MAX) :
    ((annotation_diff are should true).remove.map (fun e => e.data)).Perm
        ((are.dedup).filter (fun a => decide (a ∉ should))) ∧
      ((annotation_diff are should true).add.map (fun e => e.data)).Perm
        ((should.dedup).filter (fun a => decide (a ∉ are))) ∧
      ((annotation_diff are should true).remove.map (fun e => e.data)).Nodup ∧
      ((annotation_diff are should true).add.map (fun e => e.data)).Nodup ∧
      (annotation_diff are should true).change.map (fun c => c.before) =
        (((annotation_diff are should true).remove.filter
            (fun e => !e.log)).map (fun e => e.data)) ∧
      (annotation_diff are should true).change.map (fun c => c.after) =
        (((annotation_diff are should true).add.filter
            (fun e => !e.log)).map (fun e => e.data)) ∧
      diffLoop2
          (diffLoop1 (sortedSetDiff are should) (sortedSetDiff are should)
            (sortedSetDiff should are)).taFinal
          (diffLoop1 (sortedSetDiff are should) (sortedSetDiff are should)
            (sortedSetDiff should are)).trFinal =
        ⟨((diffLoop1 (sortedSetDiff are should) (sortedSetDiff are should)
            (sortedSetDiff should are)).taFinal).map (fun a => ⟨a, true⟩),
          [], []⟩ := by
  have hcut : ¬ ANNOTATION_DIFF_MAX ≤ are.length + should.length :=
    Nat.not_le.mpr h
  have hnp := diffLoop1_no_partner (sortedSetDiff are should)
    (sortedSetDiff are should) (sortedSetDiff should are)
    (sortedSetDiff_nodup are should) (fun a ha => Or.inl ha)
  have hloop2 := diffLoop2_no_partner
    (diffLoop1 (sortedSetDiff are should) (sortedSetDiff are should)
      (sortedSetDiff should are)).taFinal
    (diffLoop1 (sortedSetDiff are should) (sortedSetDiff are should)
      (sortedSetDiff should are)).trFinal
    (fun b hb a ha => hnp a ha b hb)
  have hd : annotation_diff are should true =
      ⟨(diffLoop1 (sortedSetDiff are should) (sortedSetDiff are should)
            (sortedSetDiff should are)).add ++
          ((diffLoop1 (sortedSetDiff are should) (sortedSetDiff are should)
            (sortedSetDiff should are)).taFinal).map (fun a => ⟨a, true⟩),
        (diffLoop1 (sortedSetDiff are should) (sortedSetDiff are should)
          (sortedSetDiff should are)).remove,
        (diffLoop1 (sortedSetDiff are should) (sortedSetDiff are should)
          (sortedSetDiff should are)).change⟩ := by
    simp [annotation_diff, hcut, hloop2]
  obtain ⟨hc1, hc2, hc3⟩ := diffLoop1_change_struct (sortedSetDiff are should)
    (sortedSetDiff are should) (sortedSetDiff should are)
  have hremdata := diffLoop1_remove_data (sortedSetDiff are should)
    (sortedSetDiff are should) (sortedSetDiff should are)
  have haddperm := diffLoop1_add_perm (sortedSetDiff are should)
    (sortedSetDiff are should) (sortedSetDiff should are)
  have hremperm : ((annotation_diff are should true).remove.map
      (fun e => e.data)).Perm
      ((are.dedup).filter (fun a => decide (a ∉ should))) := by
    rw [hd]
    simp only [hremdata]
    exact sortedSetDiff_perm are should
  have haddmap : ((annotation_diff are should true).add.map
      (fun e => e.data)) =
      ((diffLoop1 (sortedSetDiff are should) (sortedSetDiff are should)
          (sortedSetDiff should are)).add.map (fun e => e.data)) ++
        (diffLoop1 (sortedSetDiff are should) (sortedSetDiff are should)
          (sortedSetDiff should are)).taFinal := by
    rw [hd]
    simp only [List.map_append, List.map_map, Function.comp_def]
    congr 1
    exact List.map_id' _
  have haddperm2 : ((annotation_diff are should true).add.map
      (fun e => e.data)).Perm
      ((should.dedup).filter (fun a => decide (a ∉ are))) := by
    rw [haddmap]
    exact haddperm.trans (sortedSetDiff_perm should are)
  have hfilt : ∀ l1 l2 : List DiffEntry, (∀ e ∈ l1, e.log = false) →
      (∀ e ∈ l2, e.log = true) →
      (l1 ++ l2).filter (fun e => !e.log) = l1 := by
    intro l1 l2 ha hb
    have a1 : l1.filter (fun e => !e.log) = l1 :=
      List.filter_eq_self.mpr (fun e he => by simp [ha e he])
    have a2 : l2.filter (fun e => !e.log) = [] :=
      List.filter_eq_nil_iff.mpr (fun e he => by simp [hb e he])
    rw [List.filter_append, a1, a2, List.append_nil]
  refine ⟨hremperm, haddperm2, ?_, ?_, ?_, ?_, hloop2⟩
  · exact hremperm.symm.nodup
      (List.Nodup.filter _ (List.nodup_dedup are))
  · exact haddperm2.symm.nodup
      (List.Nodup.filter _ (List.nodup_dedup should))
  · rw [hd]
    exact hc1.symm
  · rw [hd]
    have hmapped : ∀ e ∈ ((diffLoop1 (sortedSetDiff are should)
        (sortedSetDiff are should) (sortedSetDiff should are)).taFinal).map
        (fun a => ({ data := a, log := true } : DiffEntry)), e.log = true := by
      intro e he
      rcases List.mem_map.mp he with ⟨a, _, rfl⟩
      rfl
    rw [hfilt _ _ hc3 hmapped]
    exact hc2.symm

/-- Witness for C10 on a small concrete pair of collections. -/
theorem annotation_diff_detection_invariants_witness :
    ([⟨"a", none, some ""⟩, ⟨"b", none, none⟩] : List Annotation).length +
        ([⟨"a", none, some "2024-01-01"⟩] : List Annotation).length <
        ANNOTATION_DIFF_MAX ∧
      ((annotation_diff [⟨"a", none, some ""⟩, ⟨"b", none, none⟩]
          [⟨"a", none, some "2024-01-01"⟩] true).remove.map
          (fun e => e.data)).Perm
        ((([⟨"a", none, some ""⟩, ⟨"b", none, none⟩] :
            List Annotation).dedup).filter
          (fun a => decide (a ∉ ([⟨"a", none, some "2024-01-01"⟩] :
            List Annotation)))) :=
  ⟨by decide,
    (annotation_diff_detection_invariants
      [⟨"a", none, some ""⟩, ⟨"b", none, none⟩]
      [⟨"a", none, some "2024-01-01"⟩] (by decide)).1⟩

/-- C6: after any n-to-m reconciliation, every network/fqdn row kept in
storage has at least one join record referencing it — the prune is global
(the final `DELETE ... WHERE NOT EXISTS` of `__fix_ntms_to_org`), so a row
whose last reference was unlinked no longer exists. -/
theorem fix_ntms_prunes_orphans (ntms_should ntms_are : List NtmEntry)
    (table_name : String) (org_id : Nat) (username : String)
    (t : NtmTables) :
    ((fix_ntms_to_org ntms_should ntms_are table_name org_id username
        t).1.rows.all (fun r =>
      (fix_ntms_to_org ntms_should ntms_are table_name org_id username
        t).1.links.any (fun l => l.2 == r.id))) = true := by
  have hp : ∀ t' : NtmTables, ((pruneNtm t').rows.all (fun r =>
      (pruneNtm t').links.any (fun l => l.2 == r.id))) = true := by
    intro t'
    rw [List.all_eq_true]
    intro r hr
    exact (List.mem_filter.mp hr).2
  exact hp _

/-- C5 counterexample: `__fix_asns_to_org` performs no duplicate-key
skipping.  With desired ASNs `[{asn 1, tag "one"}, {asn 1, tag "two"}]` in
cut mode, the annotation of the *second* duplicate is what ends up stored,
the annotation of the first occurrence is gone, and no log message is emitted —
refuting "only the first occurrence is applied, later duplicates are
discarded with a log message" for the ASN kind. -/
theorem asn_duplicate_applied_counterexample :
    (fix_asns_to_org [⟨1, none, [⟨"one", none, none⟩]⟩,
        ⟨1, none, [⟨"two", none, none⟩]⟩] "cut" 7 "u"
        emptyDB).asn_annotations = [(1, ⟨"two", none, none⟩)] ∧
      (1, (⟨"one", none, none⟩ : Annotation)) ∉
        (fix_asns_to_org [⟨1, none, [⟨"one", none, none⟩]⟩,
          ⟨1, none, [⟨"two", none, none⟩]⟩] "cut" 7 "u"
          emptyDB).asn_annotations ∧
      (fix_asns_to_org [⟨1, none, [⟨"one", none, none⟩]⟩,
        ⟨1, none, [⟨"two", none, none⟩]⟩] "cut" 7 "u"
        emptyDB).info_log = [] := by decide

/-- C1: the batch executor is not atomic.  For the batch
`["create", "create"]` where the second aggregate fails schema validation
(empty name), the endpoint reports the validation failure but the first
organisation row of the first command is already persisted — every statement was
committed individually by `_db_manipulate`/`_db_query`. -/
theorem commit_batch_partial_effects_persist :
    (commit_pending_org_changes ["create", "create"]
        [{ name := "A" }, { name := "" }] "u" emptyDB).1 =
      CommitResponse.validationFailed ["schema validation failed"] ∧
      (commit_pending_org_changes ["create", "create"]
        [{ name := "A" }, { name := "" }] "u" emptyDB).2.organisations =
      [OrgRow.mk 1 "A" "" "" "" "" none] := by decide

theorem sortBy_nil {α : Type} (lt : α → α → Bool) : sortBy lt [] = [] := rfl

theorem filter_not_mem_nil_eq_self (l : List Annotation) :
    l.filter (fun a => decide (a ∉ ([] : List Annotation))) = l :=
  List.filter_eq_self.mpr (fun a _ => by simp)

theorem annotation_diff_from_empty (annos : List Annotation) :
    annotation_diff [] annos false =
      ⟨annos.map (fun a => ⟨a, true⟩), [], []⟩ := by
  by_cases hc :
      ANNOTATION_DIFF_MAX ≤ ([] : List Annotation).length + annos.length <;>
    simp [annotation_diff, hc, filter_not_mem_nil_eq_self]

/-- Model of `__fix_annotations_to_table` in `add` mode against a column value with
no stored annotations: every desired annotation is inserted and audited. -/
theorem fix_annotations_add_fresh (annos : List Annotation)
    (tp obj un : String) (v : Nat) (tbl : List (Nat × Annotation))
    (hfresh : tbl.filter (fun r => r.1 == v) = []) :
    fix_annotations_to_table annos "add" tp v obj un tbl =
      (tbl ++ annos.map (fun a => (v, a)),
        annos.map (fun a => mkAudit tp un "add" obj none (some a))) := by
  have hare : annosFor tbl v = [] := by
    simp [annosFor, hfresh, sortBy_nil]
  have hmode : (("add" : String) == "cut") = false := by decide
  simp [fix_annotations_to_table, hare, hmode, annotation_diff_from_empty,
    List.filter_map, List.map_map, Function.comp_def]

/-- C5 (amended): in the network/FQDN synchronizer, two desired entries
with the same business key that are both missing from the current links
lead to exactly one created row, one link and one set of annotations — all
taken from the first occurrence — while the second occurrence is discarded
with a log message and no error is raised. -/
theorem ntm_duplicate_key_first_wins (e1 e2 : NtmEntry)
    (tn username : String) (org_id : Nat) (t : NtmTables)
    (hkey : e2.key = e1.key)
    (hfresh : t.annotations.filter (fun r => r.1 == t.next_id) = []) :
    fix_ntms_to_org [e1, e2] [] tn org_id username t =
      ({ rows := (t.rows ++ [NtmRow.mk t.next_id e1.key e1.comment]).filter
            (fun row => (t.links ++ [(org_id, t.next_id)]).any
              (fun l => l.2 == row.id)),
          links := t.links ++ [(org_id, t.next_id)],
          annotations := t.annotations ++
            e1.annotations.map (fun a => (t.next_id, a)),
          next_id := t.next_id + 1 },
        e1.annotations.map (fun a =>
          mkAudit tn username "add" e1.key none (some a)),
        [dupLogMsg e2.key]) := by
  simp [fix_ntms_to_org, ntmUnlinkSuperfluous, ntmCreateMissing,
    ntmUpdateExisting, pruneNtm, hkey,
    fix_annotations_add_fresh e1.annotations tn e1.key username t.next_id
      t.annotations hfresh]

/-- Witness for the amended C5 on concrete duplicate network entries. -/
theorem ntm_duplicate_key_first_wins_witness :
    (⟨none, "k", "c2", []⟩ : NtmEntry).key =
        (⟨none, "k", "c1", [⟨"x", none, none⟩]⟩ : NtmEntry).key ∧
      ((⟨[], [], [], 1⟩ : NtmTables).annotations.filter
        (fun r => r.1 == (⟨[], [], [], 1⟩ : NtmTables).next_id)) = [] ∧
      (fix_ntms_to_org [⟨none, "k", "c1", [⟨"x", none, none⟩]⟩,
          ⟨none, "k", "c2", []⟩] [] "network" 7 "u"
          ⟨[], [], [], 1⟩).2.2 = [dupLogMsg "k"] :=
  ⟨by decide, by decide, by
    rw [ntm_duplicate_key_first_wins _ _ _ _ _ _ (by decide) (by decide)]⟩

theorem leafFold_error (needed : List String) (org_id : Nat)
    (leafs : List Leaf) (e : String) :
    leafs.foldl (fun acc leaf =>
      match acc with
      | .error e => .error e
      | .ok rs =>
        match needed.find? (fun a => !(leafAttrOk leaf a)) with
        | some a => .error (a ++ " not set")
        | none => .ok (rs ++ [mkLeafRow needed org_id leaf]))
      (Except.error e : Except String (List LeafRow)) = .error e := by
  induction leafs with
  | nil => rfl
  | cons leaf rest ih => simpa using ih

theorem leafFold_spec (needed : List String) (org_id : Nat)
    (leafs : List Leaf) :
    ∀ acc : List LeafRow,
    leafs.foldl (fun acc leaf =>
      match acc with
      | .error e => .error e
      | .ok rs =>
        match needed.find? (fun a => !(leafAttrOk leaf a)) with
        | some a => .error (a ++ " not set")
        | none => .ok (rs ++ [mkLeafRow needed org_id leaf]))
      (Except.ok acc) =
      (match firstLeafError needed leafs with
       | none => .ok (acc ++ leafs.map (mkLeafRow needed org_id))
       | some a => .error (a ++ " not set")) := by
  induction leafs with
  | nil => intro acc; simp [firstLeafError]
  | cons leaf rest ih =>
    intro acc
    cases hf : needed.find? (fun a => !(leafAttrOk leaf a)) with
    | some a =>
      have hincomp : (!(leafComplete needed leaf)) = true := by
        have hp := List.find?_some hf
        have hm := List.mem_of_find?_eq_some hf
        simp only [leafComplete, Bool.not_eq_true']
        rw [List.all_eq_false]
        exact ⟨a, hm, by simpa using hp⟩
      have hfe : firstLeafError needed (leaf :: rest) = some a := by
        simp [firstLeafError, List.find?_cons, hincomp, hf]
      rw [hfe]
      simp only [List.foldl_cons, hf]
      exact leafFold_error needed org_id rest (a ++ " not set")
    | none =>
      have hcomp : (!(leafComplete needed leaf)) = false := by
        simp only [leafComplete, Bool.not_eq_false']
        rw [List.all_eq_true]
        intro a ha
        have := List.find?_eq_none.mp hf a ha
        simpa using this
      have hfe : firstLeafError needed (leaf :: rest) =
          firstLeafError needed rest := by
        simp [firstLeafError, List.find?_cons, hcomp]
      rw [hfe]
      simp only [List.foldl_cons, hf]
      rw [ih (acc ++ [mkLeafRow needed org_id leaf])]
      cases firstLeafError needed rest <;> simp

/-- C9: the leaf synchronizer deletes every leaf row owned by the parent
organisation and then processes the desired records in order; if every
record has all mandatory fields present and non-null the result is exactly
the cleared table plus all desired records tagged with the parent id, and
otherwise it fails with `CommitError` naming the first missing/null
mandatory field of the first incomplete record — leaving the decision
independent of the rows previously stored. -/
theorem fix_leafnodes_spec (leafs : List Leaf) (needed : List String)
    (org_id : Nat) (rows : List LeafRow) :
    fix_leafnodes_to_org leafs needed org_id rows =
      (match firstLeafError needed leafs with
       | none => .ok ((rows.filter (fun r =>
           !(r.organisation_id == org_id))) ++
           leafs.map (mkLeafRow needed org_id))
       | some a => .error (a ++ " not set")) := by
  unfold fix_leafnodes_to_org
  exact leafFold_spec needed org_id leafs _

theorem leafEqDict_refl (l : Leaf) : leafEqDict l l = true := by
  simp [leafEqDict]

theorem leafListEq_refl (xs : List Leaf) : leafListEq xs xs = true := by
  simp only [leafListEq, beq_self_eq_true, Bool.true_and]
  rw [List.all_eq_true]
  intro p hp
  have : p.1 = p.2 := by
    induction xs with
    | nil => simp [List.zip] at hp
    | cons x rest ih =>
      rcases List.mem_cons.mp hp with h | h
      · rw [h]
      · exact ih h
  rw [this]
  exact leafEqDict_refl _

theorem orgEqDict_refl (o : Org) : orgEqDict o o = true := by
  simp [orgEqDict, leafListEq_refl]

/-- C7: the stale-state safety check of the delete operation.  When the stored
and the caller-supplied aggregate agree after normalising empty-string
expiry fields away (`normOrg`), the delete goes through; on any mismatch
(`_compare_org` false) it raises `CommitError` before performing any write,
and the batch endpoint returns the commit failure with the database state
unchanged. -/
theorem delete_org_stale_check (org stored : Org) (org_id : Nat)
    (s : DBState) (u : String)
    (h1 : org.organisation_id = some org_id)
    (h2 : db_query_org s org_id = some stored) :
    (normOrg stored = normOrg org →
      ∃ res s', delete_org org u s = .ok (res, s')) ∧
      (compare_org stored org = false →
        delete_org org u s =
            .error (.commit "Org to be deleted differs from db entry.") ∧
          commit_pending_org_changes ["delete"] [org] u s =
            (.commitFailed "Org to be deleted differs from db entry.", s)) := by
  constructor
  · intro hEq
    have hcmp : compare_org stored org = true := by
      unfold compare_org
      rw [hEq]
      exact orgEqDict_refl _
    simp only [delete_org, h1, h2, hcmp, Bool.not_true, Bool.false_eq_true,
      if_false, ite_false, fix_leafnodes_to_org, List.foldl_nil,
      Except.mapError, bind, Except.bind, pure, Except.pure]
    exact ⟨_, _, rfl⟩
  · intro hcf
    have hdel : delete_org org u s =
        .error (.commit "Org to be deleted differs from db entry.") := by
      simp only [delete_org, h1, h2, hcf, Bool.not_false, if_true, ite_true,
        throw, throwThe, MonadExceptOf.throw, bind, Except.bind]
    refine ⟨hdel, ?_⟩
    simp only [commit_pending_org_changes, List.isEmpty, List.length,
      runCommands, run_command, hdel]
    rfl

/-- Witness for C7: deleting with an aggregate differing from stored state
only in `expires:\"\"` versus absent `expires` succeeds. -/
theorem delete_org_stale_check_witness :
    witnessDeleteOrg.organisation_id = some 1 ∧
      db_query_org witnessDeleteState 1 = some witnessDeleteStored ∧
      normOrg witnessDeleteStored = normOrg witnessDeleteOrg ∧
      ∃ res s', delete_org witnessDeleteOrg "u" witnessDeleteState =
        .ok (res, s') :=
  ⟨by decide, by decide, by decide,
    (delete_org_stale_check witnessDeleteOrg witnessDeleteStored 1
      witnessDeleteState "u" (by decide) (by decide)).1 (by decide)⟩

/-- Model of `__fix_asns_to_org` with an empty desired list (as called by
`_delete_org`): the per-asn loop does nothing, every link of the
organisation is removed by the bulk unlink, and annotations of asns without
any remaining link are cleaned up. -/
theorem fix_asns_empty (m : String) (org_id : Nat) (u : String)
    (s : DBState) :
    fix_asns_to_org [] m org_id u s =
      { s with
        org_to_asn := s.org_to_asn.filter (fun l => !(l.1 == org_id)),
        asn_annotations := s.asn_annotations.filter (fun r =>
          ((s.org_to_asn.filter (fun l => !(l.1 == org_id))).map
            (fun (l : Nat × Nat) => l.2)).contains r.1) } := by
  simp [fix_asns_to_org]

theorem fix_annotations_audit_table (annos : List Annotation)
    (mode tp obj un : String) (v : Nat) (tbl : List (Nat × Annotation)) :
    ∀ a ∈ (fix_annotations_to_table annos mode tp v obj un tbl).2,
      a.table = tp ++ "_annotation" := by
  intro a ha
  simp only [fix_annotations_to_table, List.mem_append] at ha
  rcases ha with (ha | ha) | ha
  · rcases List.mem_map.mp ha with ⟨e, _, rfl⟩
    rfl
  · by_cases hm : (mode == "cut") = true
    · rw [if_pos hm] at ha
      rcases List.mem_map.mp ha with ⟨e, _, rfl⟩
      rfl
    · rw [if_neg hm] at ha
      exact absurd ha (List.not_mem_nil a)
  · rcases List.mem_map.mp ha with ⟨e, _, rfl⟩
    rfl

theorem diffLoop1_ta_nil_add (iter tr : List Annotation) :
    (diffLoop1 iter tr []).add = [] ∧
      (diffLoop1 iter tr []).taFinal = [] := by
  have hperm := diffLoop1_add_perm iter tr []
  have h1 : (diffLoop1 iter tr []).add.map (fun e => e.data) ++
      (diffLoop1 iter tr []).taFinal = [] := List.Perm.eq_nil hperm
  rcases List.append_eq_nil.mp h1 with ⟨ha, hta⟩
  exact ⟨List.map_eq_nil_iff.mp ha, hta⟩

theorem annotation_diff_to_empty (annos : List Annotation) :
    (annotation_diff annos [] true).add = [] ∧
      ∀ a ∈ annos,
        a ∈ (annotation_diff annos [] true).remove.map (fun e => e.data) := by
  by_cases hc :
      ANNOTATION_DIFF_MAX ≤ annos.length + ([] : List Annotation).length
  · have hc2 : ¬ annos.length < ANNOTATION_DIFF_MAX :=
      Nat.not_lt.mpr (by simpa using hc)
    constructor
    · simp [annotation_diff, hc, hc2]
    · intro a ha
      simp [annotation_diff, hc, hc2, filter_not_mem_nil_eq_self, ha]
  · have hc2 : annos.length < ANNOTATION_DIFF_MAX :=
      Nat.lt_of_not_le (by simpa using hc)
    have hta : sortedSetDiff [] annos = [] := by
      simp [sortedSetDiff, sortAnnos, sortBy_nil]
    have hdd := diffLoop1_ta_nil_add (sortedSetDiff annos [])
      (sortedSetDiff annos [])
    constructor
    · simp [annotation_diff, hc, hc2, hta, hdd.1, hdd.2, diffLoop2]
    · intro a ha
      have hmem : a ∈ sortedSetDiff annos [] := by
        rw [mem_sortedSetDiff]
        simp [ha]
      simp only [annotation_diff, hc, hc2, hta, if_false, ite_false,
        if_true, ite_true, List.map_append, hdd.2, diffLoop2]
      rw [List.mem_append]
      left
      rw [diffLoop1_remove_data]
      exact hmem

theorem mem_annosFor (tbl : List (Nat × Annotation)) (v : Nat)
    (p : Nat × Annotation) (hp : p ∈ tbl) (hv : p.1 = v) :
    p.2 ∈ annosFor tbl v := by
  rw [annosFor, (sortBy_perm _ _).mem_iff]
  exact List.mem_map.mpr ⟨p, List.mem_filter.mpr ⟨hp, by simp [hv]⟩, rfl⟩

theorem foldl_filter_anno_empty (v : Nat) :
    ∀ (entries : List DiffEntry) (tbl : List (Nat × Annotation)),
      (∀ p ∈ tbl, p.1 = v → p.2 ∈ entries.map (fun e => e.data)) →
      (entries.foldl (fun t e =>
        t.filter (fun r => !(r.1 == v && r.2 == e.data))) tbl).filter
        (fun r => r.1 == v) = [] := by
  intro entries
  induction entries with
  | nil =>
    intro tbl hcov
    rw [List.filter_eq_nil_iff]
    intro p hp hpv
    exact absurd (hcov p hp (by simpa using hpv)) (List.not_mem_nil _)
  | cons e rest ih =>
    intro tbl hcov
    simp only [List.foldl_cons]
    apply ih
    intro p hp hpv
    have hmem := List.mem_filter.mp hp
    have hpe := hmem.2
    have h2 := hcov p hmem.1 hpv
    simp only [List.map_cons, List.mem_cons] at h2
    rcases h2 with h2 | h2
    · exfalso
      rw [hpv, h2] at hpe
      simp at hpe
    · exact h2

/-- Model of `__fix_annotations_to_table` in `cut` mode with an empty desired list
removes every annotation attached to the column value. -/
theorem fix_annotations_cut_empty (tp obj un : String) (v : Nat)
    (tbl : List (Nat × Annotation)) :
    (fix_annotations_to_table [] "cut" tp v obj un tbl).1.filter
      (fun r => r.1 == v) = [] := by
  have hd := annotation_diff_to_empty (annosFor tbl v)
  have hmode : (("cut" : String) == "cut") = true := by decide
  simp only [fix_annotations_to_table, hmode, if_true, ite_true, hd.1,
    List.map_nil, List.append_nil]
  exact foldl_filter_anno_empty v _ tbl
    (fun p hp hv => hd.2 p.2 (mem_annosFor tbl v p hp hv))

theorem ntmUnlink_spec (tb : String) (org_id : Nat) (u : String) :
    ∀ (are : List NtmEntry) (t : NtmTables) (au0 : List AuditRow),
      (are.foldl (fun (p : NtmTables × List AuditRow) e =>
        let fa := fix_annotations_to_table [] "cut" tb (e.id.getD 0)
          e.key u p.1.annotations
        ({ p.1 with annotations := fa.1,
                    links := p.1.links.filter (fun l =>
                      !(l.1 == org_id && l.2 == e.id.getD 0)) },
          p.2 ++ fa.2)) (t, au0)).1.rows = t.rows ∧
      (are.foldl (fun (p : NtmTables × List AuditRow) e =>
        let fa := fix_annotations_to_table [] "cut" tb (e.id.getD 0)
          e.key u p.1.annotations
        ({ p.1 with annotations := fa.1,
                    links := p.1.links.filter (fun l =>
                      !(l.1 == org_id && l.2 == e.id.getD 0)) },
          p.2 ++ fa.2)) (t, au0)).1.links =
        are.foldl (fun ls e => ls.filter (fun l =>
          !(l.1 == org_id && l.2 == e.id.getD 0))) t.links ∧
      ∀ a ∈ (are.foldl (fun (p : NtmTables × List AuditRow) e =>
        let fa := fix_annotations_to_table [] "cut" tb (e.id.getD 0)
          e.key u p.1.annotations
        ({ p.1 with annotations := fa.1,
                    links := p.1.links.filter (fun l =>
                      !(l.1 == org_id && l.2 == e.id.getD 0)) },
          p.2 ++ fa.2)) (t, au0)).2,
        a ∈ au0 ∨ a.table = tb ++ "_annotation" := by
  intro are
  induction are with
  | nil => exact fun t au0 => ⟨rfl, rfl, fun a ha => Or.inl ha⟩
  | cons e rest ih =>
    intro t au0
    simp only [List.foldl_cons]
    refine ⟨(ih _ _).1, (ih _ _).2.1, ?_⟩
    intro a ha
    rcases (ih _ _).2.2 a ha with h | h
    · rcases List.mem_append.mp h with h2 | h2
      · exact Or.inl h2
      · exact Or.inr (fix_annotations_audit_table _ _ _ _ _ _ _ a h2)
    · exact Or.inr h

theorem foldl_filter_links_empty (org_id : Nat) :
    ∀ (are : List NtmEntry) (links : List (Nat × Nat)),
      (∀ l ∈ links, l.1 = org_id → ∃ e ∈ are, e.id.getD 0 = l.2) →
      (are.foldl (fun ls e => ls.filter (fun l =>
        !(l.1 == org_id && l.2 == e.id.getD 0))) links).filter
        (fun l => l.1 == org_id) = [] := by
  intro are
  induction are with
  | nil =>
    intro links hcov
    rw [List.filter_eq_nil_iff]
    intro l hl hlv
    rcases hcov l hl (by simpa using hlv) with ⟨e, he, _⟩
    exact absurd he (List.not_mem_nil e)
  | cons e rest ih =>
    intro links hcov
    simp only [List.foldl_cons]
    apply ih
    intro l hl hlv
    have hmem := List.mem_filter.mp hl
    have hle := hmem.2
    rcases hcov l hmem.1 hlv with ⟨e2, he2, hid⟩
    rcases List.mem_cons.mp he2 with rfl | he2
    · exfalso
      rw [hlv] at hle
      simp [hid] at hle
    · exact ⟨e2, he2, hid⟩

theorem fix_ntms_reduce_empty_should (are : List NtmEntry) (tb : String)
    (org_id : Nat) (u : String) (t : NtmTables) :
    fix_ntms_to_org [] are tb org_id u t =
      (pruneNtm (ntmUnlinkSuperfluous are tb org_id u t).1,
        (ntmUnlinkSuperfluous are tb org_id u t).2, []) := by
  simp [fix_ntms_to_org, ntmCreateMissing, ntmUpdateExisting,
    ntmUnlinkSuperfluous]

/-- Model of `__fix_ntms_to_org` with an empty desired list: provided every link of
the organisation belongs to a currently-linked entry (referential
integrity), no link of the organisation survives, and all audit rows
written belong to the annotation table of that kind. -/
theorem fix_ntms_empty_should (are : List NtmEntry) (tb : String)
    (org_id : Nat) (u : String) (t : NtmTables)
    (hcov : ∀ l ∈ t.links, l.1 = org_id → ∃ e ∈ are, e.id.getD 0 = l.2) :
    ((fix_ntms_to_org [] are tb org_id u t).1.links.filter
        (fun l => l.1 == org_id) = []) ∧
      ∀ a ∈ (fix_ntms_to_org [] are tb org_id u t).2.1,
        a.table = tb ++ "_annotation" := by
  have hsp := ntmUnlink_spec tb org_id u are t []
  rw [fix_ntms_reduce_empty_should]
  constructor
  · have hlinks : (pruneNtm (ntmUnlinkSuperfluous are tb org_id u
        t).1).links = (ntmUnlinkSuperfluous are tb org_id u t).1.links :=
      rfl
    have h2 : (ntmUnlinkSuperfluous are tb org_id u t).1.links =
        are.foldl (fun ls e => ls.filter (fun l =>
          !(l.1 == org_id && l.2 == e.id.getD 0))) t.links := hsp.2.1
    rw [hlinks, h2]
    exact foldl_filter_links_empty org_id are t.links hcov
  · intro a ha
    rcases hsp.2.2 a ha with h | h
    · exact absurd h (List.not_mem_nil a)
    · exact h

theorem db_query_networks_cover (s : DBState) (org_id : Nat) (row : OrgRow)
    (hfind : s.organisations.find? (fun r => r.organisation_id == org_id) =
      some row)
    (hnet : ∀ l ∈ s.network.links, l.1 = org_id →
      ∃ r ∈ s.network.rows, r.id = l.2) :
    ∀ l ∈ s.network.links, l.1 = org_id →
      ∃ e ∈ ((db_query_org s org_id).elim []
          (fun o => o.networks)), e.id.getD 0 = l.2 := by
  intro l hl h1
  rcases hnet l hl h1 with ⟨r, hr, hid⟩
  have hpl : (org_id, r.id) = l := by
    rw [← h1, hid]
  have hcont : s.network.links.contains (org_id, r.id) = true := by
    rw [hpl]
    exact List.elem_eq_true_of_mem hl
  refine ⟨NtmEntry.mk (some r.id) r.key r.comment
    (annosFor s.network.annotations r.id), ?_, by simp [hid]⟩
  simp only [db_query_org, hfind, Option.map_some', Option.elim]
  exact List.mem_map.mpr ⟨r, (sortBy_perm _ _).mem_iff.mpr
    (List.mem_filter.mpr ⟨hr, hcont⟩), rfl⟩

theorem db_query_fqdns_cover (s : DBState) (org_id : Nat) (row : OrgRow)
    (hfind : s.organisations.find? (fun r => r.organisation_id == org_id) =
      some row)
    (hfq : ∀ l ∈ s.fqdn.links, l.1 = org_id →
      ∃ r ∈ s.fqdn.rows, r.id = l.2) :
    ∀ l ∈ s.fqdn.links, l.1 = org_id →
      ∃ e ∈ ((db_query_org s org_id).elim []
          (fun o => o.fqdns)), e.id.getD 0 = l.2 := by
  intro l hl h1
  rcases hfq l hl h1 with ⟨r, hr, hid⟩
  have hpl : (org_id, r.id) = l := by
    rw [← h1, hid]
  have hcont : s.fqdn.links.contains (org_id, r.id) = true := by
    rw [hpl]
    exact List.elem_eq_true_of_mem hl
  refine ⟨NtmEntry.mk (some r.id) r.key r.comment
    (annosFor s.fqdn.annotations r.id), ?_, by simp [hid]⟩
  simp only [db_query_org, hfind, Option.map_some', Option.elim]
  exact List.mem_map.mpr ⟨r, (sortBy_perm _ _).mem_iff.mpr
    (List.mem_filter.mpr ⟨hr, hcont⟩), rfl⟩

theorem filter_filter_not_nil {α : Type} (p : α → Bool) (xs : List α) :
    (xs.filter (fun x => !(p x))).filter p = [] := by
  rw [List.filter_eq_nil_iff]
  intro x hx
  have h := (List.mem_filter.mp hx).2
  simp only [Bool.not_eq_true'] at h
  simp [h]

theorem delete_org_pipeline_correct (org stored : Org) (org_id : Nat)
    (s : DBState) (u : String)
    (h1 : org.organisation_id = some org_id)
    (h2 : db_query_org s org_id = some stored)
    (h3 : compare_org stored org = true) :
    delete_org org u s = .ok
      ((if ((s.organisations.filter (fun r =>
          r.organisation_id == org_id)).length == 1)
        then some org_id else none),
        (delete_org_pipeline stored org_id u s).1) := by
  simp only [delete_org, h1, h2, h3, Bool.not_true, if_false, ite_false,
    Bool.false_eq_true, fix_leafnodes_to_org, List.foldl_nil,
    Except.mapError, bind, Except.bind, pure, Except.pure, fix_asns_empty,
    delete_org_pipeline, delete_org_midState]

/-- C8 (amended): once the stale-state check passes, `_delete_org` cuts the
relationships of the organisation in the order ASNs, contacts, networks,
fqdns, national certs and *then* the own annotations of the organisation (not
annotations first as the spec states), deletes the organisation row, and
returns the deleted id exactly when one row carried that id.  The order is
visible in the audit trail: the new audit rows decompose into network rows,
then fqdn rows, then organisation-annotation rows (asn cuts and leaf
deletions write no audit rows). -/
theorem delete_org_cut_order (org stored : Org) (org_id : Nat)
    (s : DBState) (u : String)
    (h1 : org.organisation_id = some org_id)
    (h2 : db_query_org s org_id = some stored)
    (h3 : compare_org stored org = true)
    (hnet : ∀ l ∈ s.network.links, l.1 = org_id →
      ∃ r ∈ s.network.rows, r.id = l.2)
    (hfq : ∀ l ∈ s.fqdn.links, l.1 = org_id →
      ∃ r ∈ s.fqdn.rows, r.id = l.2) :
    ∃ s' A1 A2 A3,
      delete_org org u s = .ok
        ((if ((s.organisations.filter (fun r =>
            r.organisation_id == org_id)).length == 1)
          then some org_id else none), s') ∧
      s'.audit_log = s.audit_log ++ A1 ++ A2 ++ A3 ∧
      (∀ a ∈ A1, a.table = "network_annotation") ∧
      (∀ a ∈ A2, a.table = "fqdn_annotation") ∧
      (∀ a ∈ A3, a.table = "organisation_annotation") ∧
      s'.org_to_asn.filter (fun l => l.1 == org_id) = [] ∧
      s'.contacts.filter (fun r => r.organisation_id == org_id) = [] ∧
      s'.national_certs.filter (fun r => r.organisation_id == org_id)
        = [] ∧
      s'.org_annotations.filter (fun r => r.1 == org_id) = [] ∧
      s'.network.links.filter (fun l => l.1 == org_id) = [] ∧
      s'.fqdn.links.filter (fun l => l.1 == org_id) = [] ∧
      s'.organisations = s.organisations.filter (fun r =>
        !(r.organisation_id == org_id)) := by
  obtain ⟨row, hfind, hrow⟩ := Option.map_eq_some'.mp h2
  refine ⟨(delete_org_pipeline stored org_id u s).1,
    (delete_org_pipeline stored org_id u s).2.1,
    (delete_org_pipeline stored org_id u s).2.2.1,
    (delete_org_pipeline stored org_id u s).2.2.2,
    delete_org_pipeline_correct org stored org_id s u h1 h2 h3,
    rfl, ?_, ?_, ?_, ?_, ?_, ?_, ?_, ?_, ?_, rfl⟩
  · have hc := db_query_networks_cover (delete_org_midState org_id s)
      org_id row hfind hnet
    exact (fix_ntms_empty_should _ "network" org_id u s.network hc).2
  · have hc := db_query_fqdns_cover (delete_org_midState org_id s)
      org_id row hfind hfq
    exact (fix_ntms_empty_should _ "fqdn" org_id u s.fqdn hc).2
  · exact fix_annotations_audit_table [] "cut" "organisation" stored.name
      u org_id s.org_annotations
  · exact filter_filter_not_nil _ _
  · exact filter_filter_not_nil _ _
  · exact filter_filter_not_nil _ _
  · exact fix_annotations_cut_empty "organisation" stored.name u org_id
      s.org_annotations
  · have hc := db_query_networks_cover (delete_org_midState org_id s)
      org_id row hfind hnet
    exact (fix_ntms_empty_should _ "network" org_id u s.network hc).1
  · have hc := db_query_fqdns_cover (delete_org_midState org_id s)
      org_id row hfind hfq
    exact (fix_ntms_empty_should _ "fqdn" org_id u s.fqdn hc).1

/-- C8 counterexample: on `witnessOrderState` the audit trail of the delete is
`network_annotation` first and `organisation_annotation` last — the
annotations of the organisation are cut *after* the network relationship, not
first as the claimed order (annotations, ASNs, leaves, networks, fqdns)
requires. -/
theorem delete_org_cut_order_counterexample :
    ((delete_org witnessOrderOrg "u" witnessOrderState).map (fun p =>
        p.2.audit_log.map (fun a => a.table))).toOption =
      some ["network_annotation", "organisation_annotation"] ∧
      ((delete_org witnessOrderOrg "u" witnessOrderState).map (fun p =>
        p.2.audit_log.map (fun a => a.table))).toOption ≠
      some ["organisation_annotation", "network_annotation"] := by decide

/-- Witness for the amended C8 at the concrete fixture. -/
theorem delete_org_cut_order_witness :
    witnessOrderOrg.organisation_id = some 1 ∧
      db_query_org witnessOrderState 1 ≠ none ∧
      ∃ s', delete_org witnessOrderOrg "u" witnessOrderState = .ok
        ((if ((witnessOrderState.organisations.filter (fun r =>
            r.organisation_id == 1)).length == 1)
          then some 1 else none), s') := by
  refine ⟨by decide, by decide, ?_⟩
  obtain ⟨s', _, _, _, hdel, _⟩ := delete_org_cut_order witnessOrderOrg
    { organisation_id := some 1, name := "O",
      annotations := [⟨"orgtag", none, none⟩],
      networks := [⟨some 5, "10.0.0.0/8", "",
        [⟨"nettag", none, none⟩]⟩] }
    1 witnessOrderState "u" (by decide) (by decide) (by decide)
    (by decide) (by decide)
  exact ⟨s', hdel⟩
